import Mathlib

/-!
Shallow embedding of the rusteroids N-body simulator core (src/core.rs, with
the crate-level constants from src/main.rs).  Rust `f64` values are modelled
as real numbers; the ECS world is modelled as an ordered `List Body` matching
the store's iteration order; fallible store application (the
`expect("updated body should exist")` panic in `Core::tick`) is modelled with
`Option`.
-/

namespace Rusteroids

/-- A 2D vector / point (`nalgebra::Vector2<f64>` / `Point2<f64>`). -/
abbrev Vec2 : Type := ℝ × ℝ

/-- Squared Euclidean magnitude of a 2D vector (`norm_squared`). -/
def magSq (v : Vec2) : ℝ := v.1 ^ 2 + v.2 ^ 2

/-- Euclidean magnitude of a 2D vector (`nalgebra` `magnitude`). -/
noncomputable def mag (v : Vec2) : ℝ := Real.sqrt (magSq v)

/-- Crate constant `GRAVITATIONAL_CONSTANT` (main.rs line 63): `0.5`. -/
noncomputable def GRAVITATIONAL_CONSTANT : ℝ := 1 / 2

/-- The intermediate body record passed around by the physics step
(struct `Body` in core.rs, lines 361-371). -/
structure Body where
  position : Vec2
  velocity : Vec2
  radius : ℝ
  mass : ℝ
  selected : Bool
  id : ℤ
  sun : Bool
  delete : Bool

/-- The dimensions component (struct `Dimensions` in core.rs, lines 34-38). -/
structure Dimensions where
  radius : ℝ
  mass : ℝ

/-- Embeds `Dimensions::from_mass` (core.rs lines 45-51):
`radius = (mass / (4/3 * PI)).cbrt()`.  The real cube root is modelled as
`rpow (1/3)`, which agrees with `f64::cbrt` on the nonnegative inputs the
program uses (masses are positive). -/
noncomputable def Dimensions.from_mass (mass : ℝ) : Dimensions :=
  { mass := mass, radius := (mass / (4 / 3 * Real.pi)) ^ ((1 : ℝ) / 3) }

/-- Embeds `calculate_gravitational_force` (core.rs lines 284-296):
`difference = other_position - position`, `distance = |difference|`,
`gravity_direction = difference.normalize()` (i.e. `difference / distance`),
`gravity = G * (mass * other_mass) / (distance * distance)`, returning
`gravity_direction * gravity`. -/
noncomputable def calculate_gravitational_force (position : Vec2) (mass : ℝ)
    (other_position : Vec2) (other_mass : ℝ) : Vec2 :=
  let difference : Vec2 := other_position - position
  let distance : ℝ := mag difference
  let gravity_direction : Vec2 := distance⁻¹ • difference
  let gravity : ℝ :=
    GRAVITATIONAL_CONSTANT * (mass * other_mass) / (distance * distance)
  gravity • gravity_direction

/-- Embeds `are_colliding` (core.rs lines 298-315).  The call
`query::proximity(ball r at p, ball r' at q, margin 0)` returns
`Intersecting` exactly when the squared distance between the centers is at
most the square of the sum of the radii (ncollide2d ball/ball proximity with
zero margin). -/
def are_colliding (position : Vec2) (radius : ℝ)
    (other_position : Vec2) (other_radius : ℝ) : Prop :=
  magSq (other_position - position) ≤ (radius + other_radius) ^ 2

noncomputable instance (p : Vec2) (r : ℝ) (q : Vec2) (r' : ℝ) :
    Decidable (are_colliding p r q r') := by
  unfold are_colliding; infer_instance

/-- One iteration of the inner gravity loop of `do_one_physics_step`
(core.rs lines 379-390): skip when the clone is the body itself or the body
is the sun, otherwise `body.velocity += gravitational_force * time_step`. -/
noncomputable def gravityStep (time_step : ℝ) (body clone : Body) : Body :=
  if body.id = clone.id ∨ body.sun = true then body
  else
    { body with
      velocity := body.velocity +
        time_step • calculate_gravitational_force body.position body.mass
          clone.position clone.mass }

/-- The velocity pass of `do_one_physics_step` (core.rs lines 374-393):
each body folds the gravity contributions of all clones into its velocity. -/
noncomputable def gravityPass (time_step : ℝ) (bodies : List Body) : List Body :=
  bodies.map (fun body => bodies.foldl (gravityStep time_step) body)

/-- The move pass of `do_one_physics_step` (core.rs lines 394-401):
`body.position += body.velocity * time_step`. -/
noncomputable def movePass (time_step : ℝ) (bodies : List Body) : List Body :=
  bodies.map (fun body =>
    { body with position := body.position + time_step • body.velocity })

/-- One iteration of the inner collision loop of `do_one_physics_step`
(core.rs lines 408-425): skip self and suns; on overlap the strictly heavier
side absorbs the clone's momentum contribution and mass, the non-heavier side
marks itself for deletion. -/
noncomputable def collide (body clone : Body) : Body :=
  if body.id = clone.id ∨ body.sun = true then body
  else if are_colliding body.position body.radius clone.position clone.radius then
    if body.mass > clone.mass then
      { body with
        velocity := body.velocity + (clone.mass / body.mass) • clone.velocity,
        mass := body.mass + clone.mass }
    else { body with delete := true }
  else body

/-- The collision pass of `do_one_physics_step` (core.rs lines 403-428):
each body folds the collision resolution against all clones. -/
noncomputable def collisionPass (bodies : List Body) : List Body :=
  bodies.map (fun body => bodies.foldl collide body)

/-- Embeds `do_one_physics_step` (core.rs lines 373-431): velocity pass, then
move pass, then collision pass. -/
noncomputable def do_one_physics_step (time_step : ℝ) (bodies : List Body) :
    List Body :=
  collisionPass (movePass time_step (gravityPass time_step bodies))

/-- Embeds `get_bodies` (core.rs lines 317-338): snapshot every stored body
with `delete: false`. -/
def get_bodies (bodies : List Body) : List Body :=
  bodies.map (fun body => { body with delete := false })

/-- Embeds the loop body of `predict_orbit` (core.rs lines 344-356) with the
remaining iteration count as fuel: step, drop deleted bodies, and every 100th
iteration sample the selected body's position. -/
noncomputable def predictSteps (time_step : ℝ) :
    List Body → ℕ → ℕ → List Vec2
  | _, _, 0 => []
  | bodies, i, Nat.succ fuel =>
    let bodies' := (do_one_physics_step time_step bodies).filter
      (fun body => !body.delete)
    let rest := predictSteps time_step bodies' (i + 1) fuel
    if i % 100 = 0 then
      match bodies'.find? (fun body => body.selected) with
      | some body => body.position :: rest
      | none => rest
    else rest

/-- Embeds `predict_orbit` (core.rs lines 340-358): 10000 scratch iterations
over a snapshot of the world. -/
noncomputable def predict_orbit (time_step : ℝ) (bodies : List Body) :
    List Vec2 :=
  predictSteps time_step (get_bodies bodies) 0 10000

/-- The simulation state (struct `Core` in core.rs, lines 70-74), with the
ECS world modelled as the ordered list of stored bodies. -/
structure Core where
  bodies : List Body
  paused : Bool
  predictedOrbit : Option (List Vec2)

/-- The ids the physics step marks for deletion in one unpaused tick
(core.rs lines 154-164). -/
noncomputable def stepDeletes (time_step : ℝ) (bodies : List Body) : List ℤ :=
  ((do_one_physics_step time_step (get_bodies bodies)).filter
    (fun body => body.delete)).map (fun body => body.id)

/-- The surviving updated bodies of one unpaused tick, keyed by id in the
code's `bodies_to_update` map (core.rs lines 154-159). -/
noncomputable def stepUpdates (time_step : ℝ) (bodies : List Body) : List Body :=
  (do_one_physics_step time_step (get_bodies bodies)).filter
    (fun body => !body.delete)

/-- Embeds the store-application loop of `Core::tick` (core.rs lines 165-192):
stored bodies whose id is marked for deletion are dropped; every other stored
body must find its updated version by id (`expect("updated body should
exist")`, modelled as `none`) and takes its position (plus the camera offset),
velocity and mass, keeping its stored radius and selection flag. -/
noncomputable def applyUpdates (updates : List Body) (delIds : List ℤ)
    (camera_x_axis camera_y_axis : ℝ) : List Body → Option (List Body)
  | [] => some []
  | body :: rest =>
    if body.id ∈ delIds then
      applyUpdates updates delIds camera_x_axis camera_y_axis rest
    else
      match updates.find? (fun u => u.id == body.id) with
      | none => none
      | some u =>
        (applyUpdates updates delIds camera_x_axis camera_y_axis rest).map
          (fun tail =>
            { body with
              position := u.position + ((camera_x_axis, camera_y_axis) : Vec2),
              velocity := u.velocity,
              mass := u.mass } :: tail)

/-- Embeds `Core::tick` (core.rs lines 142-193).  While paused it only fills
the cached orbit prediction (computing it lazily on the first paused tick);
otherwise it runs one physics step and applies the resulting updates and
deletions to the store. -/
noncomputable def Core.tick (time_step camera_x_axis camera_y_axis : ℝ)
    (c : Core) : Option Core :=
  if c.paused then
    some { c with
      predictedOrbit :=
        match c.predictedOrbit with
        | none => some (predict_orbit time_step c.bodies)
        | some o => some o }
  else
    (applyUpdates (stepUpdates time_step c.bodies)
        (stepDeletes time_step c.bodies) camera_x_axis camera_y_axis
        c.bodies).map
      (fun bodies => { c with bodies := bodies })

/-- A sequence of ticks with per-tick `(dt, camera_x, camera_y)` inputs. -/
noncomputable def Core.ticks : List (ℝ × ℝ × ℝ) → Core → Option Core
  | [], c => some c
  | input :: rest, c =>
    (Core.tick input.1 input.2.1 input.2.2 c).bind (Core.ticks rest)

/-- Embeds the solid `Ball::distance_to_point` used by `Core::click`
(core.rs lines 233-240): zero inside the ball, otherwise the distance from
the point to the ball's surface. -/
noncomputable def ballDistanceToPoint (center : Vec2) (radius : ℝ)
    (pt : Vec2) : ℝ :=
  max (mag (pt - center) - radius) 0

/-- Embeds the click-resolution pipeline of `Core::click` (core.rs lines
229-251): pair each body's solid ball distance to the click point with its
id, keep those with distance `< 5`, stably sort by distance, and take the
first. -/
noncomputable def clickedId (bodies : List Body) (click_position : Vec2) :
    Option ℤ :=
  (((bodies.map (fun body =>
        (ballDistanceToPoint body.position body.radius click_position,
          body.id))).filter
      (fun p => decide (p.1 < 5))).mergeSort
    (fun a b => decide (a.1 ≤ b.1))).head?.map Prod.snd

/-- Embeds `Core::click` (core.rs lines 227-270): clear the cached orbit
prediction, then either select exactly the clicked id or clear every
selection. -/
noncomputable def Core.click (click_position : Vec2) (c : Core) : Core :=
  { c with
    predictedOrbit := none,
    bodies :=
      match clickedId c.bodies click_position with
      | some clicked =>
        c.bodies.map (fun body =>
          { body with selected := decide (body.id = clicked) })
      | none =>
        c.bodies.map (fun body => { body with selected := false }) }

/-- The mass-to-radius formula exactly as the spec words it:
`radius = cbrt(mass / (4/3 * π))` (spec section 3). -/
noncomputable def specRadius (mass : ℝ) : ℝ :=
  (mass / (4 / 3 * Real.pi)) ^ ((1 : ℝ) / 3)

/-- Concrete non-sun body of mass 10 at the origin. -/
def heavyBody : Body :=
  ⟨((0 : ℝ), (0 : ℝ)), ((0 : ℝ), (0 : ℝ)), 1, 10, false, 0, false, false⟩

/-- Concrete non-sun body of mass 3 overlapping `heavyBody`. -/
def lightBody : Body :=
  ⟨((1 : ℝ), (0 : ℝ)), ((2 : ℝ), (0 : ℝ)), 1, 3, false, 1, false, false⟩

/-- Concrete non-sun body of mass 5 at the origin. -/
def eqMassA : Body :=
  ⟨((0 : ℝ), (0 : ℝ)), ((0 : ℝ), (0 : ℝ)), 1, 5, false, 0, false, false⟩

/-- Concrete non-sun body, also of mass 5, overlapping `eqMassA`. -/
def eqMassB : Body :=
  ⟨((1 : ℝ), (0 : ℝ)), ((0 : ℝ), (0 : ℝ)), 1, 5, false, 1, false, false⟩

/-- Concrete sun body of mass 1, lighter than `bigBody` it overlaps. -/
def sunLight : Body :=
  ⟨((0 : ℝ), (0 : ℝ)), ((0 : ℝ), (0 : ℝ)), 1, 1, false, -1, true, false⟩

/-- Concrete non-sun body of mass 100 overlapping `sunLight`. -/
def bigBody : Body :=
  ⟨((1 : ℝ), (0 : ℝ)), ((0 : ℝ), (0 : ℝ)), 1, 100, false, 1, false, false⟩

/-- Concrete sun body of mass 1000 and radius 3. -/
def sunHeavy : Body :=
  ⟨((0 : ℝ), (0 : ℝ)), ((0 : ℝ), (0 : ℝ)), 3, 1000, false, -1, true, false⟩

/-- Concrete non-sun body of mass 2 overlapping `sunHeavy`. -/
def smallBody : Body :=
  ⟨((1 : ℝ), (0 : ℝ)), ((0 : ℝ), (0 : ℝ)), 1, 2, false, 1, false, false⟩

/-!  Theorems. -/

theorem magSq_sub_comm (p q : Vec2) : magSq (p - q) = magSq (q - p) := by
  simp only [magSq, Prod.fst_sub, Prod.snd_sub]
  ring

theorem are_colliding_symm {p q : Vec2} {r r' : ℝ}
    (h : are_colliding p r q r') : are_colliding q r' p r := by
  unfold are_colliding at h ⊢
  rw [magSq_sub_comm, add_comm r' r]
  exact h

theorem collide_self (b : Body) : collide b b = b := by
  simp [collide]

theorem collide_sun {b : Body} (h : b.sun = true) (c : Body) :
    collide b c = b := by
  simp [collide, h]

theorem foldl_collide_sun {b : Body} (h : b.sun = true)
    (clones : List Body) : clones.foldl collide b = b := by
  induction clones with
  | nil => rfl
  | cons c rest ih => rw [List.foldl_cons, collide_sun h, ih]

theorem collide_absorb {b c : Body} (hne : b.id ≠ c.id) (hs : b.sun = false)
    (hcol : are_colliding b.position b.radius c.position c.radius)
    (hm : b.mass > c.mass) :
    collide b c =
      { b with
        velocity := b.velocity + (c.mass / b.mass) • c.velocity,
        mass := b.mass + c.mass } := by
  rw [collide, if_neg (by simp [hne, hs]), if_pos hcol, if_pos hm]

theorem collide_smaller {b c : Body} (hne : b.id ≠ c.id) (hs : b.sun = false)
    (hcol : are_colliding b.position b.radius c.position c.radius)
    (hm : ¬ b.mass > c.mass) :
    collide b c = { b with delete := true } := by
  rw [collide, if_neg (by simp [hne, hs]), if_pos hcol, if_neg hm]

theorem collisionPass_pair (A B : Body) :
    collisionPass [A, B] =
      [collide (collide A A) B, collide (collide B A) B] := by
  simp [collisionPass]

/-- C4: when overlapping bodies A and B have `A.mass > B.mass`, the
collision pass gives A the velocity `A.velocity + B.velocity * (B.mass /
A.mass)` computed with A's pre-merge mass, sets A's mass to `A.mass +
B.mass`, marks B for deletion, and leaves A's radius unchanged. -/
theorem merge_absorbs_with_premerge_mass (A B : Body)
    (hA : A.sun = false) (hB : B.sun = false) (hid : A.id ≠ B.id)
    (hcol : are_colliding A.position A.radius B.position B.radius)
    (hm : A.mass > B.mass) :
    collisionPass [A, B] =
      [{ A with
          velocity := A.velocity + (B.mass / A.mass) • B.velocity,
          mass := A.mass + B.mass },
       { B with delete := true }] ∧
    ({ A with
        velocity := A.velocity + (B.mass / A.mass) • B.velocity,
        mass := A.mass + B.mass } : Body).radius = A.radius := by
  constructor
  · rw [collisionPass_pair, collide_self,
      collide_absorb hid hA hcol hm,
      collide_smaller (Ne.symm hid) hB (are_colliding_symm hcol)
        (by simpa using le_of_lt hm)]
    rw [collide, if_pos (Or.inl rfl)]
  · rfl

/-- Witness for `merge_absorbs_with_premerge_mass` at the concrete
overlapping pair of masses 10 and 3. -/
theorem merge_absorbs_with_premerge_mass_witness :
    heavyBody.mass > lightBody.mass ∧
    are_colliding heavyBody.position heavyBody.radius lightBody.position
      lightBody.radius ∧
    collisionPass [heavyBody, lightBody] =
      [{ heavyBody with
          velocity := heavyBody.velocity +
            (lightBody.mass / heavyBody.mass) • lightBody.velocity,
          mass := heavyBody.mass + lightBody.mass },
       { lightBody with delete := true }] := by
  have hcol : are_colliding heavyBody.position heavyBody.radius
      lightBody.position lightBody.radius := by
    norm_num [are_colliding, magSq, heavyBody, lightBody, Prod.mk_sub_mk]
  have hm : heavyBody.mass > lightBody.mass := by
    norm_num [heavyBody, lightBody]
  exact ⟨hm, hcol,
    (merge_absorbs_with_premerge_mass heavyBody lightBody rfl rfl
      (by decide) hcol hm).1⟩

/-- C2 (amended): for an unordered overlapping pair of distinct non-sun
bodies with strictly unequal masses, the heavier is the unique absorber and
the lighter the unique deletion, whichever traversal order the pair is
visited in, and the lighter body's id is absent from the survivors. -/
theorem merge_pair_order_insensitive (A B : Body)
    (hA : A.sun = false) (hB : B.sun = false) (hid : A.id ≠ B.id)
    (hdA : A.delete = false) (hdB : B.delete = false)
    (hcol : are_colliding A.position A.radius B.position B.radius)
    (hm : A.mass > B.mass) :
    collisionPass [A, B] =
      [{ A with
          velocity := A.velocity + (B.mass / A.mass) • B.velocity,
          mass := A.mass + B.mass },
       { B with delete := true }] ∧
    collisionPass [B, A] =
      [{ B with delete := true },
       { A with
          velocity := A.velocity + (B.mass / A.mass) • B.velocity,
          mass := A.mass + B.mass }] ∧
    (collisionPass [A, B]).filter (fun b => !b.delete) =
      [{ A with
          velocity := A.velocity + (B.mass / A.mass) • B.velocity,
          mass := A.mass + B.mass }] ∧
    (collisionPass [B, A]).filter (fun b => !b.delete) =
      [{ A with
          velocity := A.velocity + (B.mass / A.mass) • B.velocity,
          mass := A.mass + B.mass }] ∧
    ((collisionPass [A, B]).filter (fun b => !b.delete)).map Body.id =
      [A.id] := by
  have h1 : collisionPass [A, B] =
      [{ A with
          velocity := A.velocity + (B.mass / A.mass) • B.velocity,
          mass := A.mass + B.mass },
       { B with delete := true }] := by
    rw [collisionPass_pair, collide_self,
      collide_absorb hid hA hcol hm,
      collide_smaller (Ne.symm hid) hB (are_colliding_symm hcol)
        (by simpa using le_of_lt hm)]
    rw [collide, if_pos (Or.inl rfl)]
  have h2 : collisionPass [B, A] =
      [{ B with delete := true },
       { A with
          velocity := A.velocity + (B.mass / A.mass) • B.velocity,
          mass := A.mass + B.mass }] := by
    rw [collisionPass_pair, collide_self,
      collide_smaller (Ne.symm hid) hB (are_colliding_symm hcol)
        (by simpa using le_of_lt hm),
      collide_absorb hid hA hcol hm]
    rw [collide, if_pos (Or.inl rfl)]
  refine ⟨h1, h2, ?_, ?_, ?_⟩ <;>
    simp [h1, h2, hdA]

/-- C2 counterexample: two distinct overlapping non-sun bodies of equal mass
5 both mark themselves for deletion and neither absorbs, so the claim that
exactly one of the pair is deleted and exactly one body remains fails. -/
theorem merge_equal_mass_pair_both_deleted :
    eqMassA.sun = false ∧ eqMassB.sun = false ∧ eqMassA.id ≠ eqMassB.id ∧
    are_colliding eqMassA.position eqMassA.radius eqMassB.position
      eqMassB.radius ∧
    collisionPass [eqMassA, eqMassB] =
      [{ eqMassA with delete := true }, { eqMassB with delete := true }] ∧
    (collisionPass [eqMassA, eqMassB]).filter (fun b => !b.delete) = [] := by
  have hcol : are_colliding eqMassA.position eqMassA.radius eqMassB.position
      eqMassB.radius := by
    norm_num [are_colliding, magSq, eqMassA, eqMassB, Prod.mk_sub_mk]
  have h1 : collisionPass [eqMassA, eqMassB] =
      [{ eqMassA with delete := true }, { eqMassB with delete := true }] := by
    rw [collisionPass_pair, collide_self,
      collide_smaller (show eqMassA.id ≠ eqMassB.id by decide) rfl hcol
        (by norm_num [eqMassA, eqMassB]),
      collide_smaller (show eqMassB.id ≠ eqMassA.id by decide) rfl
        (are_colliding_symm hcol) (by norm_num [eqMassA, eqMassB])]
    rw [collide, if_pos (Or.inl rfl)]
  exact ⟨rfl, rfl, by decide, hcol, h1, by simp [h1]⟩

/-- Witness for `merge_pair_order_insensitive` at the concrete overlapping
pair of masses 10 and 3: in both traversal orders exactly the mass-13
absorber survives and the lighter body's id is gone. -/
theorem merge_pair_order_insensitive_witness :
    heavyBody.mass > lightBody.mass ∧
    (collisionPass [heavyBody, lightBody]).filter (fun b => !b.delete) =
      [{ heavyBody with
          velocity := heavyBody.velocity +
            (lightBody.mass / heavyBody.mass) • lightBody.velocity,
          mass := heavyBody.mass + lightBody.mass }] ∧
    (collisionPass [lightBody, heavyBody]).filter (fun b => !b.delete) =
      [{ heavyBody with
          velocity := heavyBody.velocity +
            (lightBody.mass / heavyBody.mass) • lightBody.velocity,
          mass := heavyBody.mass + lightBody.mass }] ∧
    ((collisionPass [heavyBody, lightBody]).filter
      (fun b => !b.delete)).map Body.id = [heavyBody.id] := by
  have hcol : are_colliding heavyBody.position heavyBody.radius
      lightBody.position lightBody.radius := by
    norm_num [are_colliding, magSq, heavyBody, lightBody, Prod.mk_sub_mk]
  have hm : heavyBody.mass > lightBody.mass := by
    norm_num [heavyBody, lightBody]
  have h := merge_pair_order_insensitive heavyBody lightBody rfl rfl
    (by decide) rfl rfl hcol hm
  exact ⟨hm, h.2.2.1, h.2.2.2.1, h.2.2.2.2⟩

/-- C3 (amended): the sun is exempted from the collision loop from its own
perspective.  A body with `sun = true` is left untouched by a fold over any
clone list, so it never absorbs mass and never marks itself for deletion;
a collision between a sun and a lighter non-sun body is resolved solely from
the other body's perspective, which marks itself for deletion while the sun
is returned unchanged. -/
theorem sun_exempt_from_collision_loop :
    (∀ (clones : List Body) (b : Body), b.sun = true →
      clones.foldl collide b = b) ∧
    (∀ S A : Body, S.sun = true → A.sun = false → A.id ≠ S.id →
      are_colliding S.position S.radius A.position A.radius →
      A.mass ≤ S.mass →
      collisionPass [S, A] = [S, { A with delete := true }]) := by
  constructor
  · exact fun clones b h => foldl_collide_sun h clones
  · intro S A hS hA hid hcol hm
    rw [collisionPass_pair, collide_self, collide_sun hS,
      collide_smaller hid hA (are_colliding_symm hcol) (by simpa using hm)]
    rw [collide, if_pos (Or.inl rfl)]

/-- C3 counterexample: a sun of mass 1 overlaps a non-sun body of mass 100;
were the sun processed like any other body it would mark itself for deletion
as the lighter side, but the collision pass returns it completely
unchanged. -/
theorem sun_not_checked_counterexample :
    sunLight.sun = true ∧ sunLight.id ≠ bigBody.id ∧
    are_colliding sunLight.position sunLight.radius bigBody.position
      bigBody.radius ∧
    sunLight.mass < bigBody.mass ∧ sunLight.delete = false ∧
    (collisionPass [sunLight, bigBody]).head? = some sunLight := by
  refine ⟨rfl, by decide, ?_, by norm_num [sunLight, bigBody], rfl, ?_⟩
  · norm_num [are_colliding, magSq, sunLight, bigBody, Prod.mk_sub_mk]
  · rw [collisionPass_pair, collide_self,
      collide_sun (show sunLight.sun = true from rfl)]
    rfl

/-- Witness for `sun_exempt_from_collision_loop` at concrete inputs: the
heavy sun is untouched by a fold over the overlapping small body, and the
pair resolution deletes only the small body. -/
theorem sun_exempt_from_collision_loop_witness :
    [smallBody].foldl collide sunHeavy = sunHeavy ∧
    collisionPass [sunHeavy, smallBody] =
      [sunHeavy, { smallBody with delete := true }] := by
  refine ⟨sun_exempt_from_collision_loop.1 [smallBody] sunHeavy rfl,
    sun_exempt_from_collision_loop.2 sunHeavy smallBody rfl rfl (by decide)
      ?_ (by norm_num [sunHeavy, smallBody])⟩
  norm_num [are_colliding, magSq, sunHeavy, smallBody, Prod.mk_sub_mk]

/-- C10: for every positive mass the radius derived at body creation equals
`cbrt(mass / (4/3 * π))`, and for mass 113 the derived radius is within
1/100 of 3. -/
theorem from_mass_radius_formula :
    (∀ m : ℝ, 0 < m → (Dimensions.from_mass m).radius = specRadius m) ∧
    |(Dimensions.from_mass 113).radius - 3| < 1 / 100 := by
  constructor
  · intro m _
    rfl
  · have hπ₁ : (3.141592 : ℝ) < Real.pi := Real.pi_gt_d6
    have hπ₂ : Real.pi < 3.15 := Real.pi_lt_d2
    have hd : (0 : ℝ) < 4 / 3 * Real.pi := by positivity
    have hx : (0 : ℝ) ≤ 113 / (4 / 3 * Real.pi) := le_of_lt (by positivity)
    have hup : (113 : ℝ) / (4 / 3 * Real.pi) < 3.01 ^ (3 : ℕ) := by
      rw [div_lt_iff₀ hd]
      nlinarith
    have hlo : (2.99 : ℝ) ^ (3 : ℕ) < 113 / (4 / 3 * Real.pi) := by
      rw [lt_div_iff₀ hd]
      nlinarith
    have hcube : ∀ y : ℝ, 0 ≤ y → ((y ^ (3 : ℕ) : ℝ)) ^ ((1 : ℝ) / 3) = y := by
      intro y hy
      rw [← Real.rpow_natCast y 3, ← Real.rpow_mul hy]
      norm_num
    have h1 : (Dimensions.from_mass 113).radius < 3.01 := by
      have := Real.rpow_lt_rpow hx hup (by norm_num : (0 : ℝ) < 1 / 3)
      rwa [hcube 3.01 (by norm_num)] at this
    have h2 : (2.99 : ℝ) < (Dimensions.from_mass 113).radius := by
      have := Real.rpow_lt_rpow
        (by positivity : (0 : ℝ) ≤ (2.99 : ℝ) ^ (3 : ℕ)) hlo
        (by norm_num : (0 : ℝ) < 1 / 3)
      rwa [hcube 2.99 (by norm_num)] at this
    rw [abs_lt]
    constructor <;> [linarith; linarith]

/-- Witness for `from_mass_radius_formula` at mass 113. -/
theorem from_mass_radius_formula_witness :
    (0 : ℝ) < 113 ∧
    (Dimensions.from_mass 113).radius = specRadius 113 ∧
    |(Dimensions.from_mass 113).radius - 3| < 1 / 100 :=
  ⟨by norm_num, from_mass_radius_formula.1 113 (by norm_num),
    from_mass_radius_formula.2⟩

theorem gravityStep_preserves_shape (time_step : ℝ) (b c : Body) :
    (gravityStep time_step b c).position = b.position ∧
    (gravityStep time_step b c).mass = b.mass ∧
    (gravityStep time_step b c).id = b.id ∧
    (gravityStep time_step b c).sun = b.sun := by
  unfold gravityStep
  by_cases h : b.id = c.id ∨ b.sun = true <;> simp [h]

/-- C1 (amended): for a non-sun body, the gravity fold adds, for every clone
with a different id, exactly `direction * (G * body.mass * clone.mass /
distance^2) * dt` to the velocity: the raw pairwise force is scaled by `dt`
and accumulated directly, without dividing by the body's own mass. -/
theorem gravity_fold_accumulates_force (time_step : ℝ) (A : Body)
    (clones : List Body) (hA : A.sun = false) :
    clones.foldl (gravityStep time_step) A =
      { A with
        velocity := A.velocity +
          ((clones.filter (fun c => decide (A.id ≠ c.id))).map (fun c =>
            time_step •
              ((GRAVITATIONAL_CONSTANT * (A.mass * c.mass) /
                  (mag (c.position - A.position) *
                    mag (c.position - A.position))) •
                ((mag (c.position - A.position))⁻¹ •
                  (c.position - A.position))))).sum } := by
  induction clones generalizing A with
  | nil => simp
  | cons c rest ih =>
    rw [List.foldl_cons]
    by_cases h : A.id = c.id
    · rw [show gravityStep time_step A c = A by
        rw [gravityStep, if_pos (Or.inl h)]]
      rw [ih A hA]
      simp [List.filter_cons, h]
    · have hstep : gravityStep time_step A c =
          { A with
            velocity := A.velocity +
              time_step • calculate_gravitational_force A.position A.mass
                c.position c.mass } := by
        rw [gravityStep, if_neg (by simp [h, hA])]
      rw [hstep, ih _ (by simp [hA])]
      rw [List.filter_cons_of_pos (by simp [h]), List.map_cons,
        List.sum_cons]
      congr 1
      simp [calculate_gravitational_force, add_assoc]

/-- Witness for `gravity_fold_accumulates_force` at a concrete non-sun body
of mass 10 folding over the single clone of mass 3. -/
theorem gravity_fold_accumulates_force_witness :
    heavyBody.sun = false ∧
    [lightBody].foldl (gravityStep 1) heavyBody =
      { heavyBody with
        velocity := heavyBody.velocity +
          (([lightBody].filter
              (fun c => decide (heavyBody.id ≠ c.id))).map (fun c =>
            (1 : ℝ) •
              ((GRAVITATIONAL_CONSTANT * (heavyBody.mass * c.mass) /
                  (mag (c.position - heavyBody.position) *
                    mag (c.position - heavyBody.position))) •
                ((mag (c.position - heavyBody.position))⁻¹ •
                  (c.position - heavyBody.position))))).sum } :=
  ⟨rfl, gravity_fold_accumulates_force 1 heavyBody [lightBody] rfl⟩

/-- C1 counterexample: a non-sun body of mass 2 at the origin and a clone of
mass 1 at distance 1.  The claimed per-pair velocity change `direction * (G *
clone.mass / distance^2) * dt` (force divided by the body's mass) predicts a
new velocity of (1/2, 0) with G = 1/2 and dt = 1, but the gravity fold
produces (1, 0): the code never divides the force by the body's mass. -/
theorem gravity_divided_by_mass_counterexample :
    ([(⟨((1 : ℝ), (0 : ℝ)), ((0 : ℝ), (0 : ℝ)), 1, 1, false, 1, false,
        false⟩ : Body)].foldl (gravityStep 1)
      (⟨((0 : ℝ), (0 : ℝ)), ((0 : ℝ), (0 : ℝ)), 1, 2, false, 0, false,
        false⟩ : Body)).velocity = ((1 : ℝ), (0 : ℝ)) ∧
    ¬ ([(⟨((1 : ℝ), (0 : ℝ)), ((0 : ℝ), (0 : ℝ)), 1, 1, false, 1, false,
          false⟩ : Body)].foldl (gravityStep 1)
        (⟨((0 : ℝ), (0 : ℝ)), ((0 : ℝ), (0 : ℝ)), 1, 2, false, 0, false,
          false⟩ : Body)).velocity =
      (1 : ℝ) •
        ((GRAVITATIONAL_CONSTANT * (1 : ℝ) /
            (mag (((1 : ℝ), (0 : ℝ)) - ((0 : ℝ), (0 : ℝ))) *
              mag (((1 : ℝ), (0 : ℝ)) - ((0 : ℝ), (0 : ℝ))))) •
          ((mag (((1 : ℝ), (0 : ℝ)) - ((0 : ℝ), (0 : ℝ))))⁻¹ •
            (((1 : ℝ), (0 : ℝ)) - ((0 : ℝ), (0 : ℝ))))) := by
  have hmag : mag (((1 : ℝ), (0 : ℝ)) - ((0 : ℝ), (0 : ℝ))) = 1 := by
    simp [mag, magSq, Prod.mk_sub_mk]
  have hfold : ([(⟨((1 : ℝ), (0 : ℝ)), ((0 : ℝ), (0 : ℝ)), 1, 1, false, 1,
        false, false⟩ : Body)].foldl (gravityStep 1)
      (⟨((0 : ℝ), (0 : ℝ)), ((0 : ℝ), (0 : ℝ)), 1, 2, false, 0, false,
        false⟩ : Body)).velocity = ((1 : ℝ), (0 : ℝ)) := by
    rw [List.foldl_cons, List.foldl_nil, gravityStep,
      if_neg (by norm_num)]
    simp only [calculate_gravitational_force, GRAVITATIONAL_CONSTANT]
    rw [show ((⟨((1 : ℝ), (0 : ℝ)), ((0 : ℝ), (0 : ℝ)), 1, 1, false, 1,
        false, false⟩ : Body)).position -
        ((⟨((0 : ℝ), (0 : ℝ)), ((0 : ℝ), (0 : ℝ)), 1, 2, false, 0, false,
        false⟩ : Body)).position = ((1 : ℝ), (0 : ℝ)) by
      simp [Prod.mk_sub_mk]]
    rw [show mag ((1 : ℝ), (0 : ℝ)) = 1 by simp [mag, magSq]]
    norm_num [Prod.smul_def, Prod.mk_add_mk]
  refine ⟨hfold, ?_⟩
  rw [hfold, hmag]
  intro h
  have h1 := congrArg Prod.fst h
  simp only [Prod.smul_def, Prod.mk_sub_mk, smul_eq_mul,
    GRAVITATIONAL_CONSTANT] at h1
  norm_num at h1

theorem tick_paused (time_step camera_x_axis camera_y_axis : ℝ) (c : Core)
    (h : c.paused = true) :
    Core.tick time_step camera_x_axis camera_y_axis c =
      some { c with
        predictedOrbit :=
          match c.predictedOrbit with
          | none => some (predict_orbit time_step c.bodies)
          | some o => some o } := by
  rw [Core.tick, if_pos (by simp [h])]

/-- C5: while the paused flag is set, any sequence of ticks succeeds and
leaves the body store exactly unchanged (so every body's position, velocity
and mass are untouched and nothing is deleted), and the flag stays set. -/
theorem pause_freezes_physics (inputs : List (ℝ × ℝ × ℝ)) (c : Core)
    (h : c.paused = true) :
    ∃ c', Core.ticks inputs c = some c' ∧ c'.bodies = c.bodies ∧
      c'.paused = true := by
  induction inputs generalizing c with
  | nil => exact ⟨c, rfl, rfl, h⟩
  | cons input rest ih =>
    obtain ⟨c', h1, h2, h3⟩ := ih
      { c with
        predictedOrbit :=
          match c.predictedOrbit with
          | none => some (predict_orbit input.1 c.bodies)
          | some o => some o } h
    refine ⟨c', ?_, h2, h3⟩
    rw [Core.ticks, tick_paused input.1 input.2.1 input.2.2 c h]
    simpa using h1

/-- Witness for `pause_freezes_physics`: a paused one-body core ticked
three times keeps its body list. -/
theorem pause_freezes_physics_witness :
    (Core.mk [heavyBody] true none).paused = true ∧
    ∃ c', Core.ticks [(1, 0, 0), (1, 0, 0), (1, 0, 0)]
        (Core.mk [heavyBody] true none) = some c' ∧
      c'.bodies = (Core.mk [heavyBody] true none).bodies ∧
      c'.paused = true :=
  ⟨rfl, pause_freezes_physics [(1, 0, 0), (1, 0, 0), (1, 0, 0)]
    (Core.mk [heavyBody] true none) rfl⟩

/-- C8: orbit prediction is a pure function of the snapshot and dt and never
mutates the live store.  A first paused tick caches exactly
`predict_orbit dt bodies`; a second paused tick (even with a different dt)
returns the identical point sequence; and the body store is unchanged by
both. -/
theorem prediction_pure_and_cached
    (time_step camera_x_axis camera_y_axis t2 cx2 cy2 : ℝ) (c : Core)
    (h : c.paused = true) (h0 : c.predictedOrbit = none) :
    ∃ c₁ c₂,
      Core.tick time_step camera_x_axis camera_y_axis c = some c₁ ∧
      Core.tick t2 cx2 cy2 c₁ = some c₂ ∧
      c₁.bodies = c.bodies ∧ c₂.bodies = c.bodies ∧
      c₁.predictedOrbit = some (predict_orbit time_step c.bodies) ∧
      c₂.predictedOrbit = some (predict_orbit time_step c.bodies) := by
  refine ⟨{ c with predictedOrbit := some (predict_orbit time_step c.bodies) },
    { c with predictedOrbit := some (predict_orbit time_step c.bodies) },
    ?_, ?_, rfl, rfl, rfl, rfl⟩
  · rw [tick_paused _ _ _ c h, h0]
  · rw [tick_paused _ _ _ _ (by simpa using h)]

/-- Witness for `prediction_pure_and_cached` on a paused one-body core with
no cached prediction. -/
theorem prediction_pure_and_cached_witness :
    (Core.mk [heavyBody] true none).paused = true ∧
    (Core.mk [heavyBody] true none).predictedOrbit = none ∧
    ∃ c₁ c₂,
      Core.tick 1 0 0 (Core.mk [heavyBody] true none) = some c₁ ∧
      Core.tick 2 0 0 c₁ = some c₂ ∧
      c₁.bodies = [heavyBody] ∧ c₂.bodies = [heavyBody] ∧
      c₁.predictedOrbit = some (predict_orbit 1 [heavyBody]) ∧
      c₂.predictedOrbit = some (predict_orbit 1 [heavyBody]) :=
  ⟨rfl, rfl, prediction_pure_and_cached 1 0 0 2 0 0
    (Core.mk [heavyBody] true none) rfl rfl⟩

theorem collide_id (b c : Body) : (collide b c).id = b.id := by
  unfold collide
  split_ifs <;> rfl

theorem foldl_collide_id (clones : List Body) (b : Body) :
    (clones.foldl collide b).id = b.id := by
  induction clones generalizing b with
  | nil => rfl
  | cons c rest ih => rw [List.foldl_cons, ih, collide_id]

theorem gravityStep_id (time_step : ℝ) (b c : Body) :
    (gravityStep time_step b c).id = b.id := by
  unfold gravityStep
  split_ifs <;> rfl

theorem foldl_gravityStep_id (time_step : ℝ) (clones : List Body) (b : Body) :
    (clones.foldl (gravityStep time_step) b).id = b.id := by
  induction clones generalizing b with
  | nil => rfl
  | cons c rest ih => rw [List.foldl_cons, ih, gravityStep_id]

theorem step_ids (time_step : ℝ) (bodies : List Body) :
    (do_one_physics_step time_step bodies).map Body.id =
      bodies.map Body.id := by
  unfold do_one_physics_step collisionPass movePass gravityPass
  rw [List.map_map, List.map_map, List.map_map]
  refine List.map_congr_left (fun b _ => ?_)
  show (List.foldl collide _ _).id = b.id
  rw [foldl_collide_id]
  show (List.foldl (gravityStep time_step) b _).id = b.id
  rw [foldl_gravityStep_id]

theorem get_bodies_ids (bodies : List Body) :
    (get_bodies bodies).map Body.id = bodies.map Body.id := by
  unfold get_bodies
  rw [List.map_map]
  rfl

theorem applyUpdates_isSome (updates : List Body) (delIds : List ℤ)
    (camera_x_axis camera_y_axis : ℝ) (l : List Body)
    (h : ∀ b ∈ l, b.id ∉ delIds →
      (updates.find? (fun u => u.id == b.id)).isSome = true) :
    ∃ r, applyUpdates updates delIds camera_x_axis camera_y_axis l =
      some r := by
  induction l with
  | nil => exact ⟨[], rfl⟩
  | cons b rest ih =>
    obtain ⟨r, hr⟩ := ih (fun x hx => h x (List.mem_cons_of_mem b hx))
    by_cases hdel : b.id ∈ delIds
    · exact ⟨r, by simp [applyUpdates, hdel, hr]⟩
    · obtain ⟨u, hu⟩ := Option.isSome_iff_exists.mp
        (h b (List.mem_cons_self b rest) hdel)
      refine ⟨{ b with
          position := u.position + ((camera_x_axis, camera_y_axis) : Vec2),
          velocity := u.velocity,
          mass := u.mass } :: r, ?_⟩
      simp [applyUpdates, hdel, hu, hr]

/-- C9: on an unpaused store with pairwise-distinct live ids, every live id
not marked for deletion by the physics step has an updated version in the
step's update set, and the tick as a whole succeeds: the fatal missing-id
lookup (`expect("updated body should exist")`) is unreachable. -/
theorem tick_never_drops_live_body (time_step camera_x_axis camera_y_axis : ℝ)
    (c : Core) (hnd : (c.bodies.map Body.id).Nodup) (hp : c.paused = false) :
    (∀ b ∈ c.bodies, b.id ∉ stepDeletes time_step c.bodies →
      ∃ u ∈ stepUpdates time_step c.bodies, u.id = b.id) ∧
    ∃ c', Core.tick time_step camera_x_axis camera_y_axis c = some c' := by
  have hin : ∀ b ∈ c.bodies, b.id ∉ stepDeletes time_step c.bodies →
      ∃ u ∈ stepUpdates time_step c.bodies, u.id = b.id := by
    intro b hb hbdel
    have hmem : b.id ∈ (do_one_physics_step time_step
        (get_bodies c.bodies)).map Body.id := by
      rw [step_ids, get_bodies_ids]
      exact List.mem_map_of_mem Body.id hb
    obtain ⟨u, hu, huid⟩ := List.mem_map.mp hmem
    rcases hdel : u.delete with _ | _
    · exact ⟨u, List.mem_filter.mpr ⟨hu, by simp [hdel]⟩, huid⟩
    · exfalso
      apply hbdel
      unfold stepDeletes
      rw [← huid]
      exact List.mem_map_of_mem Body.id
        (List.mem_filter.mpr ⟨hu, by simp [hdel]⟩)
  refine ⟨hin, ?_⟩
  have hfind : ∀ b ∈ c.bodies, b.id ∉ stepDeletes time_step c.bodies →
      ((stepUpdates time_step c.bodies).find?
        (fun u => u.id == b.id)).isSome = true := by
    intro b hb hbdel
    obtain ⟨u, hu, huid⟩ := hin b hb hbdel
    exact List.find?_isSome.mpr ⟨u, hu, by simp [huid]⟩
  have hfind' : ∀ b ∈ c.bodies, b.id ∉ stepDeletes time_step c.bodies →
      ((stepUpdates time_step c.bodies).find?
        (fun u => u.id == b.id)).isSome = true := hfind
  obtain ⟨r, hr⟩ := applyUpdates_isSome (stepUpdates time_step c.bodies)
    (stepDeletes time_step c.bodies) camera_x_axis camera_y_axis c.bodies
    hfind'
  refine ⟨{ c with bodies := r }, ?_⟩
  rw [Core.tick, if_neg (by simp [hp]), hr]
  rfl

/-- Witness for `tick_never_drops_live_body` on an unpaused two-body core
with distinct ids. -/
theorem tick_never_drops_live_body_witness :
    ((Core.mk [heavyBody, lightBody] false none).bodies.map Body.id).Nodup ∧
    (Core.mk [heavyBody, lightBody] false none).paused = false ∧
    ((∀ b ∈ (Core.mk [heavyBody, lightBody] false none).bodies,
        b.id ∉ stepDeletes 1 (Core.mk [heavyBody, lightBody] false
          none).bodies →
        ∃ u ∈ stepUpdates 1 (Core.mk [heavyBody, lightBody] false
          none).bodies, u.id = b.id) ∧
      ∃ c', Core.tick 1 0 0 (Core.mk [heavyBody, lightBody] false none) =
        some c') :=
  ⟨by decide, rfl,
    tick_never_drops_live_body 1 0 0 (Core.mk [heavyBody, lightBody] false
      none) (by decide) rfl⟩

theorem gravityStep_sun {b : Body} (h : b.sun = true) (time_step : ℝ)
    (c : Body) : gravityStep time_step b c = b := by
  rw [gravityStep, if_pos (Or.inr h)]

theorem foldl_gravityStep_sun {b : Body} (h : b.sun = true) (time_step : ℝ)
    (clones : List Body) : clones.foldl (gravityStep time_step) b = b := by
  induction clones with
  | nil => rfl
  | cons c rest ih => rw [List.foldl_cons, gravityStep_sun h, ih]

theorem sun_in_step (time_step : ℝ) (bodies : List Body) (b : Body)
    (hb : b ∈ bodies) (hs : b.sun = true) :
    ∃ u ∈ do_one_physics_step time_step (get_bodies bodies),
      u.id = b.id ∧ u.velocity = b.velocity ∧ u.sun = true ∧
      u.delete = false := by
  have hb0 : ({ b with delete := false } : Body) ∈ get_bodies bodies :=
    List.mem_map_of_mem _ hb
  have hg : ({ b with delete := false } : Body) ∈
      gravityPass time_step (get_bodies bodies) :=
    List.mem_map.mpr ⟨{ b with delete := false }, hb0,
      foldl_gravityStep_sun
        (show ({ b with delete := false } : Body).sun = true from hs)
        time_step (get_bodies bodies)⟩
  have hm : ({ b with
      delete := false,
      position := b.position + time_step • b.velocity } : Body) ∈
      movePass time_step (gravityPass time_step (get_bodies bodies)) :=
    List.mem_map_of_mem _ hg
  refine ⟨{ b with
    delete := false,
    position := b.position + time_step • b.velocity }, ?_, rfl, rfl, hs, rfl⟩
  unfold do_one_physics_step
  exact List.mem_map.mpr ⟨_, hm,
    foldl_collide_sun
      (show ({ b with
        delete := false,
        position := b.position + time_step • b.velocity } : Body).sun = true
        from hs) _⟩

theorem applyUpdates_mem (updates : List Body) (delIds : List ℤ)
    (camera_x_axis camera_y_axis : ℝ) (l : List Body) :
    ∀ (r : List Body),
    applyUpdates updates delIds camera_x_axis camera_y_axis l = some r →
    ∀ b ∈ l, b.id ∉ delIds →
    ∀ u, updates.find? (fun v => v.id == b.id) = some u →
    ({ b with
      position := u.position + ((camera_x_axis, camera_y_axis) : Vec2),
      velocity := u.velocity, mass := u.mass } : Body) ∈ r := by
  induction l with
  | nil => intro r _ b hb; exact absurd hb (List.not_mem_nil b)
  | cons a rest ih =>
    intro r h b hb hbdel u hfind
    rcases List.mem_cons.mp hb with rfl | hbrest
    · rw [applyUpdates, if_neg hbdel, hfind] at h
      obtain ⟨tail, htail, hr⟩ := Option.map_eq_some'.mp h
      rw [← hr]
      exact List.mem_cons_self _ _
    · by_cases ha : a.id ∈ delIds
      · rw [applyUpdates, if_pos ha] at h
        exact ih r h b hbrest hbdel u hfind
      · rcases hfa : updates.find? (fun v => v.id == a.id) with _ | ua
        · rw [applyUpdates, if_neg ha, hfa] at h
          exact absurd h (by simp)
        · rw [applyUpdates, if_neg ha, hfa] at h
          obtain ⟨tail, htail, hr⟩ := Option.map_eq_some'.mp h
          rw [← hr]
          exact List.mem_cons_of_mem _ (ih tail htail b hbrest hbdel u hfind)

theorem applyUpdates_ids_sublist (updates : List Body) (delIds : List ℤ)
    (camera_x_axis camera_y_axis : ℝ) (l : List Body) :
    ∀ (r : List Body),
    applyUpdates updates delIds camera_x_axis camera_y_axis l = some r →
    (r.map Body.id).Sublist (l.map Body.id) := by
  induction l with
  | nil =>
    intro r h
    rw [applyUpdates] at h
    obtain rfl := Option.some.inj h.symm
    simp
  | cons a rest ih =>
    intro r h
    by_cases ha : a.id ∈ delIds
    · rw [applyUpdates, if_pos ha] at h
      exact (ih r h).cons a.id
    · rcases hfa : updates.find? (fun v => v.id == a.id) with _ | ua
      · rw [applyUpdates, if_neg ha, hfa] at h
        exact absurd h (by simp)
      · rw [applyUpdates, if_neg ha, hfa] at h
        obtain ⟨tail, htail, hr⟩ := Option.map_eq_some'.mp h
        rw [← hr]
        exact (ih tail htail).cons₂ a.id

theorem tick_preserves_sun (time_step camera_x_axis camera_y_axis : ℝ)
    (c c' : Core)
    (h : Core.tick time_step camera_x_axis camera_y_axis c = some c')
    (hnd : (c.bodies.map Body.id).Nodup)
    (b : Body) (hb : b ∈ c.bodies) (hs : b.sun = true) :
    (c'.bodies.map Body.id).Nodup ∧
    ∃ b' ∈ c'.bodies, b'.id = b.id ∧ b'.velocity = b.velocity ∧
      b'.sun = true := by
  by_cases hp : c.paused = true
  · rw [tick_paused _ _ _ _ hp] at h
    obtain rfl := Option.some.inj h
    exact ⟨hnd, b, hb, rfl, rfl, hs⟩
  · rw [Core.tick, if_neg (by simpa using hp)] at h
    obtain ⟨r, hr, hc'⟩ := Option.map_eq_some'.mp h
    have hndstep : ((do_one_physics_step time_step
        (get_bodies c.bodies)).map Body.id).Nodup := by
      rw [step_ids, get_bodies_ids]
      exact hnd
    obtain ⟨u, hu, huid, huv, hus, hud⟩ :=
      sun_in_step time_step c.bodies b hb hs
    have hnotdel : b.id ∉ stepDeletes time_step c.bodies := by
      intro hmem
      unfold stepDeletes at hmem
      obtain ⟨w, hw, hwid⟩ := List.mem_map.mp hmem
      have hwf := List.mem_filter.mp hw
      have hwu : w = u :=
        List.inj_on_of_nodup_map hndstep hwf.1 hu (hwid.trans huid.symm)
      rw [hwu, hud] at hwf
      exact absurd hwf.2 (by simp)
    have hfindsome : ((stepUpdates time_step c.bodies).find?
        (fun v => v.id == b.id)).isSome = true :=
      List.find?_isSome.mpr ⟨u,
        List.mem_filter.mpr ⟨hu, by simp [hud]⟩, by simp [huid]⟩
    obtain ⟨u', hfind⟩ := Option.isSome_iff_exists.mp hfindsome
    have hu'mem : u' ∈ stepUpdates time_step c.bodies :=
      List.mem_of_find?_eq_some hfind
    have hu'id : u'.id = b.id := by simpa using List.find?_some hfind
    have hu'u : u' = u :=
      List.inj_on_of_nodup_map hndstep
        (List.mem_filter.mp hu'mem).1 hu (hu'id.trans huid.symm)
    have hmem := applyUpdates_mem (stepUpdates time_step c.bodies)
      (stepDeletes time_step c.bodies) camera_x_axis camera_y_axis
      c.bodies r hr b hb hnotdel u' hfind
    have hbodies : c'.bodies = r := by rw [← hc']
    constructor
    · rw [hbodies]
      exact (applyUpdates_ids_sublist (stepUpdates time_step c.bodies)
        (stepDeletes time_step c.bodies) camera_x_axis camera_y_axis
        c.bodies r hr).nodup hnd
    · refine ⟨{ b with
        position := u'.position +
          ((camera_x_axis, camera_y_axis) : Vec2),
        velocity := u'.velocity, mass := u'.mass }, ?_, rfl, ?_, hs⟩
      · rw [hbodies]
        exact hmem
      · show u'.velocity = b.velocity
        rw [hu'u, huv]

/-- C6: for a sun body (with any other bodies present, live ids pairwise
distinct), after any sequence of ticks a body with the sun's id is still in
the store, its velocity is exactly the original one, and it is still the
sun: gravity never perturbs the sun. -/
theorem sun_velocity_never_perturbed (inputs : List (ℝ × ℝ × ℝ))
    (c c' : Core) (hnd : (c.bodies.map Body.id).Nodup)
    (b : Body) (hb : b ∈ c.bodies) (hs : b.sun = true)
    (h : Core.ticks inputs c = some c') :
    ∃ b' ∈ c'.bodies, b'.id = b.id ∧ b'.velocity = b.velocity ∧
      b'.sun = true := by
  induction inputs generalizing c b with
  | nil =>
    obtain rfl := Option.some.inj h
    exact ⟨b, hb, rfl, rfl, hs⟩
  | cons input rest ih =>
    rw [Core.ticks] at h
    rcases htick : Core.tick input.1 input.2.1 input.2.2 c with _ | c₁
    · rw [htick] at h
      exact absurd h (by simp)
    · rw [htick] at h
      obtain ⟨hnd₁, b₁, hb₁, hid₁, hv₁, hs₁⟩ :=
        tick_preserves_sun input.1 input.2.1 input.2.2 c c₁ htick hnd b hb hs
      obtain ⟨b', hb', hid', hv', hs'⟩ :=
        ih c₁ hnd₁ b₁ hb₁ hs₁ (by simpa using h)
      exact ⟨b', hb', hid'.trans hid₁, hv'.trans hv₁, hs'⟩

/-- Witness for `sun_velocity_never_perturbed` on a paused core holding one
sun body, ticked once. -/
theorem sun_velocity_never_perturbed_witness :
    sunHeavy.sun = true ∧
    ∃ b' ∈ (Core.mk [sunHeavy] true (some [])).bodies,
      b'.id = sunHeavy.id ∧ b'.velocity = sunHeavy.velocity ∧
      b'.sun = true :=
  ⟨rfl, sun_velocity_never_perturbed [(1, 0, 0)]
    (Core.mk [sunHeavy] true (some [])) (Core.mk [sunHeavy] true (some []))
    (by decide) sunHeavy (List.mem_cons_self _ _) rfl rfl⟩

theorem length_filter_selected_le_one (l : List Body) (i : ℤ)
    (hnd : (l.map Body.id).Nodup)
    (h : ∀ b ∈ l, b.selected = true → b.id = i) :
    (l.filter (fun b => b.selected)).length ≤ 1 := by
  have hsub : ((l.filter (fun b => b.selected)).map Body.id).Sublist
      (l.map Body.id) := (List.filter_sublist l).map Body.id
  have hnd' := hsub.nodup hnd
  rcases hfl : l.filter (fun b => b.selected) with _ | ⟨x, _ | ⟨y, t⟩⟩
  · simp [hfl]
  · simp [hfl]
  · exfalso
    have hx := List.mem_filter.mp (hfl ▸ List.mem_cons_self x (y :: t))
    have hy := List.mem_filter.mp
      (hfl ▸ List.mem_cons_of_mem x (List.mem_cons_self y t))
    have hxi : x.id = i := h x hx.1 (by simpa using hx.2)
    have hyi : y.id = i := h y hy.1 (by simpa using hy.2)
    rw [hfl] at hnd'
    simp only [List.map_cons, List.nodup_cons, List.mem_cons] at hnd'
    exact hnd'.1 (Or.inl (hxi.trans hyi.symm))

theorem click_ids (click_position : Vec2) (c : Core) :
    ((Core.click click_position c).bodies.map Body.id) =
      c.bodies.map Body.id := by
  unfold Core.click
  rcases clickedId c.bodies click_position with _ | i <;>
    simp [List.map_map]

/-- C7: after any click, at most one body is selected; when the click
pipeline resolves to an id, exactly the bodies with that id are selected
(one body, since ids are distinct) and every other body is deselected; when
it resolves to no id every body is deselected; and a resolved id always
belongs to a body whose ball distance to the click point is below the
tolerance 5 and is minimal among all qualifying bodies. -/
theorem click_selection_exclusive (click_position : Vec2) (c : Core)
    (hnd : (c.bodies.map Body.id).Nodup) :
    ((Core.click click_position c).bodies.filter
        (fun b => b.selected)).length ≤ 1 ∧
    (∀ i, clickedId c.bodies click_position = some i →
      ∀ b ∈ (Core.click click_position c).bodies,
        (b.selected = true ↔ b.id = i)) ∧
    (clickedId c.bodies click_position = none →
      ∀ b ∈ (Core.click click_position c).bodies, b.selected = false) ∧
    (∀ i, clickedId c.bodies click_position = some i →
      ∃ b ∈ c.bodies, b.id = i ∧
        ballDistanceToPoint b.position b.radius click_position < 5 ∧
        ∀ b' ∈ c.bodies,
          ballDistanceToPoint b'.position b'.radius click_position < 5 →
          ballDistanceToPoint b.position b.radius click_position ≤
            ballDistanceToPoint b'.position b'.radius click_position) := by
  have hsel : ∀ i, clickedId c.bodies click_position = some i →
      ∀ b ∈ (Core.click click_position c).bodies,
        (b.selected = true ↔ b.id = i) := by
    intro i hi b hb
    unfold Core.click at hb
    rw [hi] at hb
    obtain ⟨a, _, rfl⟩ := List.mem_map.mp hb
    simp
  have hnone : clickedId c.bodies click_position = none →
      ∀ b ∈ (Core.click click_position c).bodies, b.selected = false := by
    intro hi b hb
    unfold Core.click at hb
    rw [hi] at hb
    obtain ⟨a, _, rfl⟩ := List.mem_map.mp hb
    rfl
  refine ⟨?_, hsel, hnone, ?_⟩
  · rcases hi : clickedId c.bodies click_position with _ | i
    · have : (Core.click click_position c).bodies.filter
          (fun b => b.selected) = [] := by
        rw [List.filter_eq_nil_iff]
        intro b hb
        simp [hnone hi b hb]
      simp [this]
    · exact length_filter_selected_le_one _ i (by rw [click_ids]; exact hnd)
        (fun b hb hbs => (hsel i hi b hb).mp hbs)
  · intro i hi
    unfold clickedId at hi
    rcases hs : ((c.bodies.map (fun body =>
        (ballDistanceToPoint body.position body.radius click_position,
          body.id))).filter (fun p => decide (p.1 < 5))).mergeSort
        (fun a b => decide (a.1 ≤ b.1)) with _ | ⟨p, t⟩
    · rw [hs] at hi
      exact absurd hi (by simp)
    · rw [hs] at hi
      have hp2 : p.2 = i := by simpa using hi
      have hperm := List.mergeSort_perm ((c.bodies.map (fun body =>
        (ballDistanceToPoint body.position body.radius click_position,
          body.id))).filter (fun p => decide (p.1 < 5)))
        (fun a b => decide (a.1 ≤ b.1))
      have hpcand : p ∈ (c.bodies.map (fun body =>
          (ballDistanceToPoint body.position body.radius click_position,
            body.id))).filter (fun p => decide (p.1 < 5)) :=
        hperm.mem_iff.mp (hs ▸ List.mem_cons_self p t)
      obtain ⟨hpmap, hplt⟩ := List.mem_filter.mp hpcand
      obtain ⟨b, hbmem, hbeq⟩ := List.mem_map.mp hpmap
      have hb1 : ballDistanceToPoint b.position b.radius click_position =
          p.1 := congrArg Prod.fst hbeq
      have hb2 : b.id = i := (congrArg Prod.snd hbeq).trans hp2
      refine ⟨b, hbmem, hb2, ?_, ?_⟩
      · rw [hb1]
        simpa using hplt
      · intro b' hb' hlt'
        have hcand' : (ballDistanceToPoint b'.position b'.radius
            click_position, b'.id) ∈ (c.bodies.map (fun body =>
            (ballDistanceToPoint body.position body.radius click_position,
              body.id))).filter (fun p => decide (p.1 < 5)) :=
          List.mem_filter.mpr ⟨List.mem_map_of_mem _ hb', by simpa⟩
        have hsort' := hperm.mem_iff.mpr hcand'
        rw [hs] at hsort'
        rcases List.mem_cons.mp hsort' with heq | hmem
        · rw [hb1, ← heq]
        · have hpw := @List.sorted_mergeSort (ℝ × ℤ)
            (fun a b => decide (a.1 ≤ b.1))
            (fun a b c hab hbc => by
              simp only [decide_eq_true_eq] at hab hbc ⊢
              exact le_trans hab hbc)
            (fun a b => by
              simp only [Bool.or_eq_true, decide_eq_true_eq]
              exact le_total a.1 b.1)
            ((c.bodies.map (fun body =>
              (ballDistanceToPoint body.position body.radius click_position,
                body.id))).filter (fun p => decide (p.1 < 5)))
          rw [hs] at hpw
          have hle := (List.pairwise_cons.mp hpw).1 _ hmem
          simp only [decide_eq_true_eq] at hle
          rw [hb1]
          exact hle

/-- Witness for `click_selection_exclusive` on a concrete two-body core
clicked at the origin. -/
theorem click_selection_exclusive_witness :
    ((Core.mk [heavyBody, lightBody] false none).bodies.map Body.id).Nodup ∧
    ((Core.click ((0 : ℝ), (0 : ℝ)) (Core.mk [heavyBody, lightBody] false
        none)).bodies.filter (fun b => b.selected)).length ≤ 1 :=
  ⟨by decide,
    (click_selection_exclusive ((0 : ℝ), (0 : ℝ))
      (Core.mk [heavyBody, lightBody] false none) (by decide)).1⟩

end Rusteroids
